import Mathlib

/-
Verification of the credential-integrity subsystem of the FlaskMegaTutorial
repository: the Argon2 hashing wrapper (app/security/hashes/argon2.py), the
cost and strength policies (app/security/policies/), the hasher registry
(app/security/core/registry.py), the uniqueness validator
(app/helpers/validators.py), the reset-token helpers (app/helpers/tokens.py)
and the calibration harness (benchmarks/calibration.py), shallowly embedded
in Lean.  Python strings are modelled as lists of characters, Python ints as
Int, raised exceptions as explicit error values.
-/

deriving instance DecidableEq for Except

/-- Python `str`, as a list of characters. -/
abbrev PyStr := List Char

/-- Python `str.lower()`: character-wise lowercase fold. -/
def pyLower (s : PyStr) : PyStr := s.map Char.toLower

/-- Python truthiness of an `Optional[str]` value: `None` and the empty
string are falsy, every other string is truthy. -/
def pyTruthy : Option PyStr → Bool
  | none => false
  | some s => !s.isEmpty

/- ----------------------------------------------------------------------
app/security/policies/argon2_policy.py
---------------------------------------------------------------------- -/

def ARGON2_MIN_TIME_COST : Int := 1
def ARGON2_MAX_TIME_COST : Int := 20
def ARGON2_MIN_MEMORY : Int := 65536
def ARGON2_WARN_MEMORY : Int := 131072
def ARGON2_MAX_MEMORY : Int := 1048576
def ARGON2_MIN_PARALLELISM : Int := 1
def ARGON2_MAX_PARALLELISM : Int := 64
def ARGON2_MIN_HASH_LENGTH : Int := 16
def ARGON2_WARN_HASH_LENGTH : Int := 32
def ARGON2_MIN_SALT_LENGTH : Int := 16
def ARGON2_MIN_PEPPER_LENGTH : Int := 16

/-- The `Argon2Policy` dataclass fields (argon2_policy.py).  The dataclass
itself carries no invariant; validation happens in `__post_init__`,
embedded below as `mkArgon2Policy`. -/
structure Argon2Policy where
  time_cost : Int
  memory_cost : Int
  parallelism : Int
  hash_length : Int
  salt_length : Int
  pepper : Option PyStr
deriving DecidableEq

/-- `InvalidPolicyConfig` raised by `Argon2Policy.__post_init__`, one
constructor per hard check, in source order. -/
inductive PolicyError
  | timeCostTooLow
  | parallelismTooLow
  | hashLengthTooLow
  | saltLengthTooLow
deriving DecidableEq

/-- The diagnostics `__post_init__` emits through `logger.warning` /
`logger.info` (soft thresholds), one constructor per call site, in source
order. -/
inductive PolicyWarning
  | memoryBelowMin
  | memoryBelowOwasp
  | hashLengthBelowOwasp
  | timeCostAboveMax
  | memoryAboveMax
  | parallelismAboveMax
  | pepperTooShort
  | noPepperInfo
deriving DecidableEq

/-- `Argon2Policy(...)` construction, i.e. the dataclass followed by
`__post_init__`: the four hard checks raise `InvalidPolicyConfig` in source
order; the soft checks only log, collected here as a list in source order.
(The `isinstance(pepper, str)` hard check cannot fire in this embedding
because `pepper` is typed `Option PyStr`.) -/
def mkArgon2Policy (time_cost memory_cost parallelism hash_length salt_length : Int)
    (pepper : Option PyStr) : Except PolicyError (Argon2Policy × List PolicyWarning) :=
  if time_cost < ARGON2_MIN_TIME_COST then Except.error PolicyError.timeCostTooLow
  else if parallelism < ARGON2_MIN_PARALLELISM then Except.error PolicyError.parallelismTooLow
  else if hash_length < ARGON2_MIN_HASH_LENGTH then Except.error PolicyError.hashLengthTooLow
  else if salt_length < ARGON2_MIN_SALT_LENGTH then Except.error PolicyError.saltLengthTooLow
  else
    Except.ok (⟨time_cost, memory_cost, parallelism, hash_length, salt_length, pepper⟩,
      (if memory_cost < ARGON2_MIN_MEMORY then [PolicyWarning.memoryBelowMin] else []) ++
      (if memory_cost < ARGON2_WARN_MEMORY then [PolicyWarning.memoryBelowOwasp] else []) ++
      (if hash_length < ARGON2_WARN_HASH_LENGTH then [PolicyWarning.hashLengthBelowOwasp] else []) ++
      (if time_cost > ARGON2_MAX_TIME_COST then [PolicyWarning.timeCostAboveMax] else []) ++
      (if memory_cost > ARGON2_MAX_MEMORY then [PolicyWarning.memoryAboveMax] else []) ++
      (if parallelism > ARGON2_MAX_PARALLELISM then [PolicyWarning.parallelismAboveMax] else []) ++
      (if pyTruthy pepper &&
          decide (((pepper.getD []).length : Int) < ARGON2_MIN_PEPPER_LENGTH) then
        [PolicyWarning.pepperTooShort] else []) ++
      (if !pyTruthy pepper then [PolicyWarning.noPepperInfo] else []))

/- ----------------------------------------------------------------------
app/security/hashes/argon2.py
---------------------------------------------------------------------- -/

/-- Outcome of a call to `argon2.PasswordHasher.verify` (argon2-cffi):
it returns `True`, raises `VerifyMismatchError` when the well-formed stored
hash does not match the password, or raises `InvalidHashError` when the
stored hash cannot be parsed as an Argon2 hash. -/
inductive A2Outcome
  | ok
  | mismatch
  | invalidHash
deriving DecidableEq

/-- Model of `self._hasher`, the `argon2.PasswordHasher` instance built from
the cost parameters.  argon2-cffi is an external library, so it is abstracted
to its documented contract: `hash` produces a non-empty self-describing blob,
and `verify` on a produced blob returns `True` for the hashed input and
raises `VerifyMismatchError` for any other input. -/
structure Argon2Primitive where
  primHash : PyStr → PyStr
  primVerify : PyStr → PyStr → A2Outcome
  hash_ne_nil : ∀ s, primHash s ≠ []
  verify_hash_same : ∀ s, primVerify (primHash s) s = A2Outcome.ok
  verify_hash_diff : ∀ s t, s ≠ t → primVerify (primHash s) t = A2Outcome.mismatch

/-- The result of a Python call that either returns a value or lets an
exception escape. -/
inductive PyResult (α : Type)
  | ret (v : α)
  | raises
deriving DecidableEq

/-- `ValueError("Password cannot be empty")` raised by `Argon2.hash`;
the spec's error taxonomy calls it `EmptyInput`. -/
inductive EmptyInput
  | emptyPassword
deriving DecidableEq

/-- The `Argon2` hasher class: a cost policy (whose pepper it reads) and the
`PasswordHasher` instance built from it. -/
structure Argon2 where
  policy : Argon2Policy
  hasher : Argon2Primitive

/-- `Argon2._with_pepper`: append the pepper if configured (`if
self.policy.pepper:` — `None` and the empty string are both falsy). -/
def Argon2.with_pepper (a : Argon2) (password : PyStr) : PyStr :=
  if pyTruthy a.policy.pepper then password ++ a.policy.pepper.getD []
  else password

/-- `Argon2.hash`: raises `ValueError` on an empty password (`if not
password:`), otherwise delegates the peppered password to the primitive. -/
def Argon2.hash (a : Argon2) (password : PyStr) : Except EmptyInput PyStr :=
  if password.isEmpty then Except.error EmptyInput.emptyPassword
  else Except.ok (a.hasher.primHash (a.with_pepper password))

/-- `Argon2.verify`: `False` when the stored hash or the password is `None`
or empty (`if not stored_hash or not password:`); otherwise delegates to the
primitive, catching only `VerifyMismatchError` — any other exception of the
primitive (such as `InvalidHashError` on a malformed stored hash)
propagates. -/
def Argon2.verify (a : Argon2) (stored_hash password : Option PyStr) : PyResult Bool :=
  match stored_hash, password with
  | some sh, some pw =>
    if sh.isEmpty || pw.isEmpty then PyResult.ret false
    else
      match a.hasher.primVerify sh (a.with_pepper pw) with
      | A2Outcome.ok => PyResult.ret true
      | A2Outcome.mismatch => PyResult.ret false
      | A2Outcome.invalidHash => PyResult.raises
  | _, _ => PyResult.ret false

/- A concrete primitive used to evaluate the embedding on closed inputs:
hashing tags the input with a leading 'T'; verifying a blob that does not
start with 'T' raises `InvalidHashError`, matching argon2-cffi's documented
behaviour on a string that is not an Argon2 hash. -/

def toyPrimHash (s : PyStr) : PyStr := 'T' :: s

def toyPrimVerify (stored pw : PyStr) : A2Outcome :=
  if stored = 'T' :: pw then A2Outcome.ok
  else if stored.head? = some 'T' then A2Outcome.mismatch
  else A2Outcome.invalidHash

def toyPrim : Argon2Primitive where
  primHash := toyPrimHash
  primVerify := toyPrimVerify
  hash_ne_nil := by intro s; simp [toyPrimHash]
  verify_hash_same := by intro s; simp [toyPrimHash, toyPrimVerify]
  verify_hash_diff := by intro s t hst; simp [toyPrimHash, toyPrimVerify, hst]

/-- A concrete `Argon2` hasher at the dataclass defaults, with a pepper. -/
def toyArgon : Argon2 where
  policy :=
    { time_cost := 6, memory_cost := 102400, parallelism := 4,
      hash_length := 32, salt_length := 16,
      pepper := some ['p', 'e', 'p'] }
  hasher := toyPrim

/-- A concrete `Argon2` hasher at the dataclass defaults, without pepper. -/
def toyArgonNoPepper : Argon2 where
  policy :=
    { time_cost := 6, memory_cost := 102400, parallelism := 4,
      hash_length := 32, salt_length := 16, pepper := none }
  hasher := toyPrim

/-- `_with_pepper` is injective in the password for a fixed policy. -/
theorem Argon2.with_pepper_inj (a : Argon2) {p q : PyStr}
    (h : a.with_pepper p = a.with_pepper q) : p = q := by
  unfold Argon2.with_pepper at h
  split at h
  · exact List.append_cancel_right h
  · exact h

/- ----------------------------------------------------------------------
app/security/policies/password_policy.py
---------------------------------------------------------------------- -/

def PASSWORD_MIN_LEN_RECOMMENDED : Int := 12
def PASSWORD_MIN_LEN_MAX : Int := 128

/-- The `PasswordPolicy` dataclass fields. -/
structure PasswordPolicy where
  min_length : Int
  require_upper : Bool
  require_lower : Bool
  require_digit : Bool
  require_special : Bool
deriving DecidableEq

/-- The character class of the regex `[A-Z]` in `PasswordPolicy.validate`. -/
def isUpperAZ (c : Char) : Bool := 'A' ≤ c && c ≤ 'Z'

/-- The character class of the regex `[a-z]`. -/
def isLowerAZ (c : Char) : Bool := 'a' ≤ c && c ≤ 'z'

/-- The character class of the regex `\d`, on its ASCII fragment `[0-9]`
(Python `re` additionally matches non-ASCII Unicode decimal digits). -/
def isDigit09 (c : Char) : Bool := '0' ≤ c && c ≤ '9'

/-- The character class of the regex `[^A-Za-z0-9]`. -/
def isSpecialChar (c : Char) : Bool := !(isUpperAZ c || isLowerAZ c || isDigit09 c)

/-- The `InvalidPolicyConfig` messages `PasswordPolicy.validate` raises, one
constructor per rule, in source order. -/
inductive StrengthViolation
  | tooShort
  | missingUpper
  | missingLower
  | missingDigit
  | missingSpecial
deriving DecidableEq

/-- `PasswordPolicy.validate`: raises `InvalidPolicyConfig` naming the first
failed check (length, then the four `re.search` class checks in source
order); returns `None` when all pass. -/
def PasswordPolicy.validate (pol : PasswordPolicy) (password : PyStr) :
    Except StrengthViolation Unit :=
  if (password.length : Int) < pol.min_length then
    Except.error StrengthViolation.tooShort
  else if pol.require_upper && !password.any isUpperAZ then
    Except.error StrengthViolation.missingUpper
  else if pol.require_lower && !password.any isLowerAZ then
    Except.error StrengthViolation.missingLower
  else if pol.require_digit && !password.any isDigit09 then
    Except.error StrengthViolation.missingDigit
  else if pol.require_special && !password.any isSpecialChar then
    Except.error StrengthViolation.missingSpecial
  else Except.ok ()

/-- The spec's words (§4.1): the first unmet rule in the fixed precedence
order length, upper, lower, digit, special — a rule is unmet when it is
required and no character of the class occurs; `none` when the password
meets the policy. -/
def firstUnmetRule (pol : PasswordPolicy) (password : PyStr) : Option StrengthViolation :=
  if (password.length : Int) < pol.min_length then
    some StrengthViolation.tooShort
  else if pol.require_upper = true ∧ ∀ c ∈ password, isUpperAZ c = false then
    some StrengthViolation.missingUpper
  else if pol.require_lower = true ∧ ∀ c ∈ password, isLowerAZ c = false then
    some StrengthViolation.missingLower
  else if pol.require_digit = true ∧ ∀ c ∈ password, isDigit09 c = false then
    some StrengthViolation.missingDigit
  else if pol.require_special = true ∧ ∀ c ∈ password, isSpecialChar c = false then
    some StrengthViolation.missingSpecial
  else none

/- ----------------------------------------------------------------------
app/security/core/registry.py
---------------------------------------------------------------------- -/

/-- A registered hasher class, abstracted to an identifier (the registry
never inspects the class it stores). -/
abbrev HasherClass := Nat

/-- `_HASHER_REGISTRY`: the global `dict[str, HasherClass]`, modelled as an
association list with the newest binding first (`List.lookup` returns the
newest, matching dict overwrite semantics). -/
abbrev Registry := List (PyStr × HasherClass)

/-- `register_hasher(name)` applied to a class: writes under the lowercased
key and warns (`logger.warning`) when the key was already present; the
returned flag records whether the overwrite warning fired. -/
def register_hasher (reg : Registry) (name : PyStr) (cls : HasherClass) :
    Registry × Bool :=
  ((pyLower name, cls) :: reg, ((reg.lookup (pyLower name)).isSome : Bool))

/-- `ValueError(f"Unsupported hash variant: ...")` raised by
`get_hasher_class`; the spec's taxonomy calls it `UnsupportedAlgorithm`. -/
inductive UnsupportedAlgorithm
  | unsupported
deriving DecidableEq

/-- `get_hasher_class`: look up the lowercased name, raising when absent. -/
def get_hasher_class (reg : Registry) (name : PyStr) :
    Except UnsupportedAlgorithm HasherClass :=
  match reg.lookup (pyLower name) with
  | some cls => Except.ok cls
  | none => Except.error UnsupportedAlgorithm.unsupported

/-- The registry produced by a finite sequence of `register_hasher` calls,
starting from the empty table. -/
def buildRegistry (calls : List (PyStr × HasherClass)) : Registry :=
  calls.foldl (fun reg c => (register_hasher reg c.1 c.2).1) []

/-- The spec's words: the most recently registered constructor whose
case-folded name matches (last write wins), if any. -/
def lastRegistered (calls : List (PyStr × HasherClass)) (name : PyStr) :
    Option HasherClass :=
  calls.foldl (fun acc c => if pyLower c.1 == pyLower name then some c.2 else acc) none

/- ----------------------------------------------------------------------
app/helpers/validators.py
---------------------------------------------------------------------- -/

/-- `validate_unique(field, value_field, original, msg)`: `candidate` is
`field.data`, `existing` the stored values of `value_field`, and the result
is `true` when the function returns normally and `false` when it raises
`ValidationError`.  `exists = db.session.scalar(select(value_field).where(
value_field == canonical))` yields the matching stored value — which equals
`canonical` — or `None`, modelled by `List.find?`; `if exists:` then tests
Python truthiness of that optional string. -/
def validate_unique (candidate : PyStr) (existing : List PyStr)
    (original : Option PyStr) : Bool :=
  let canonical := pyLower candidate
  if pyTruthy original && (canonical == pyLower (original.getD [])) then true
  else
    let found := existing.find? (fun v => v == canonical)
    if pyTruthy found then false else true

/-- The spec's words (§4.6), exactly as claimed: exemption whenever an
original is supplied with equal canonical form, otherwise accept exactly
when the canonical candidate is absent from the existing values. -/
def is_unique_spec (candidate : PyStr) (existing : List PyStr)
    (original : Option PyStr) : Bool :=
  let canonical := pyLower candidate
  match original with
  | some o => if canonical == pyLower o then true else !(existing.contains canonical)
  | none => !(existing.contains canonical)

/-- The amended reading forced by the code: a candidate whose canonical form
is empty is never rejected (the `if exists:` truthiness test is false on the
fetched empty string), and the exemption outcome is unchanged. -/
def is_unique_amended (candidate : PyStr) (existing : List PyStr)
    (original : Option PyStr) : Bool :=
  let canonical := pyLower candidate
  match original with
  | some o =>
    if canonical == pyLower o then true
    else !(existing.contains canonical) || canonical.isEmpty
  | none => !(existing.contains canonical) || canonical.isEmpty

/- ----------------------------------------------------------------------
app/helpers/tokens.py
---------------------------------------------------------------------- -/

/-- A decoded JWT claims object `{"reset_password": ..., "exp": ...}`.
`verify_reset_token` reads the subject with `payload.get("reset_password")`,
which may be absent; `exp` is the absolute expiry instant (`time()` is a
float in Python, modelled here at integer resolution). -/
structure JwtPayload where
  reset_password : Option Int
  exp : Int
deriving DecidableEq

/-- A symbolic model of the PyJWT token blob (external library): a
well-formed token records the payload and the secret whose HS256 signature
it carries; any other byte string is malformed. -/
inductive Token
  | signed (payload : JwtPayload) (secret : PyStr)
  | malformed (raw : PyStr)
deriving DecidableEq

/-- The exceptions `jwt.decode` can raise (all are caught by the caller). -/
inductive JwtError
  | invalidSignature
  | expiredSignature
  | decodeError
deriving DecidableEq

/-- `jwt.encode(payload, secret, algorithm="HS256")`. -/
def jwtEncode (payload : JwtPayload) (secret : PyStr) : Token :=
  Token.signed payload secret

/-- `jwt.decode(token, secret, algorithms=["HS256"])` evaluated at current
time `now`: checks the signature against `secret`, then the registered
`exp` claim — PyJWT (leeway 0) raises `ExpiredSignatureError` when
`exp <= now`, so the token passes only when its expiry is strictly in the
future. -/
def jwtDecode (now : Int) (token : Token) (secret : PyStr) :
    Except JwtError JwtPayload :=
  match token with
  | Token.malformed _ => Except.error JwtError.decodeError
  | Token.signed payload sig =>
    if sig ≠ secret then Except.error JwtError.invalidSignature
    else if payload.exp ≤ now then Except.error JwtError.expiredSignature
    else Except.ok payload

/-- `generate_reset_token(user_id, expires_in)`: encode
`{"reset_password": user_id, "exp": time() + expires_in}` under the
process secret `SECRET_KEY`. -/
def generate_reset_token (secret : PyStr) (now : Int) (user_id : Int)
    (expires_in : Int) : Token :=
  jwtEncode { reset_password := some user_id, exp := now + expires_in } secret

/-- `verify_reset_token(token)`: decode under the process secret; the bare
`except Exception: return None` maps every decode failure to `None`. -/
def verify_reset_token (secret : PyStr) (now : Int) (token : Token) : Option Int :=
  match jwtDecode now token secret with
  | Except.ok payload => payload.reset_password
  | Except.error _ => none

/- ----------------------------------------------------------------------
benchmarks/calibration.py
---------------------------------------------------------------------- -/

/-- `TARGET_TIME = 0.25` seconds (0.25 is exactly representable, so the
rational is exact). -/
def TARGET_TIME : ℚ := 1 / 4

/-- `time_call(fn, loops=3)`: the mean `(t1 - t0) / loops`, modelled on the
total elapsed time of the `loops` repetitions. -/
def time_call (totalElapsed : ℚ) (loops : ℕ) : ℚ := totalElapsed / loops

/-- The `while True` measure-and-step loop shared by `calibrate_pbkdf2`,
`calibrate_bcrypt` and `calibrate_argon2`, with explicit fuel standing for
the number of loop iterations still permitted: measure the mean latency at
the current parameter value, stop at the first value at or above target,
otherwise advance by `step` — `none` when the fuel runs out first. -/
def calibrateLoop (totalTime : Int → ℚ) (target : ℚ) (step : Int → Int) :
    Nat → Int → Option Int
  | 0, _ => none
  | Nat.succ fuel, x =>
    if target ≤ time_call (totalTime x) 3 then some x
    else calibrateLoop totalTime target step fuel (step x)

/-- `iterations = int(iterations * 1.2)`, in exact arithmetic `⌊6·n/5⌋`
(binary floating point can differ by one unit; only strict growth from the
seed matters below). -/
def stepPbkdf2 (n : Int) : Int := 6 * n / 5

/-- `rounds += 1` / `time_cost += 1`. -/
def stepAdd1 (n : Int) : Int := n + 1

/-- `calibrate_pbkdf2`: seed 10_000, multiplicative advance. -/
def calibrate_pbkdf2 (totalTime : Int → ℚ) (fuel : Nat) : Option Int :=
  calibrateLoop totalTime TARGET_TIME stepPbkdf2 fuel 10000

/-- `calibrate_bcrypt`: seed 4, additive advance. -/
def calibrate_bcrypt (totalTime : Int → ℚ) (fuel : Nat) : Option Int :=
  calibrateLoop totalTime TARGET_TIME stepAdd1 fuel 4

/-- `calibrate_argon2`: time_cost seed 2, additive advance (memory_cost and
parallelism stay fixed at 65536 and 2). -/
def calibrate_argon2 (totalTime : Int → ℚ) (fuel : Nat) : Option Int :=
  calibrateLoop totalTime TARGET_TIME stepAdd1 fuel 2

/- ----------------------------------------------------------------------
Theorems
---------------------------------------------------------------------- -/

/-- C1: for every fixed Argon2 hasher (fixed cost policy and pepper) and
every non-empty password `p`, `verify (hash p) p` returns `true`, and for
every password `q` different from `p`, `verify (hash p) q` returns
`false`. -/
theorem argon2_hash_verify_roundtrip (a : Argon2) (p : PyStr) (hp : p ≠ []) :
    ∃ h, Argon2.hash a p = Except.ok h ∧
      Argon2.verify a (some h) (some p) = PyResult.ret true ∧
      ∀ q : PyStr, q ≠ p → Argon2.verify a (some h) (some q) = PyResult.ret false := by
  have hpe : p.isEmpty = false := by
    cases p with
    | nil => exact absurd rfl hp
    | cons c cs => rfl
  have hne : a.hasher.primHash (a.with_pepper p) ≠ [] := a.hasher.hash_ne_nil _
  have hhe : (a.hasher.primHash (a.with_pepper p)).isEmpty = false := by
    cases hh : a.hasher.primHash (a.with_pepper p) with
    | nil => exact absurd hh hne
    | cons c cs => rfl
  refine ⟨a.hasher.primHash (a.with_pepper p), ?_, ?_, ?_⟩
  · simp [Argon2.hash, hpe]
  · simp [Argon2.verify, hpe, hhe, a.hasher.verify_hash_same]
  · intro q hq
    cases q with
    | nil => simp [Argon2.verify]
    | cons c cs =>
      have hwp : a.with_pepper p ≠ a.with_pepper (c :: cs) := by
        intro hh
        exact hq (a.with_pepper_inj hh).symm
      have hmm := a.hasher.verify_hash_diff (a.with_pepper p) (a.with_pepper (c :: cs)) hwp
      simp [Argon2.verify, hhe, hmm]

/-- C1 witness: the roundtrip at a concrete hasher and password. -/
theorem argon2_hash_verify_roundtrip_witness :
    ∃ h, Argon2.hash toyArgon ['s', 'e', 'c'] = Except.ok h ∧
      Argon2.verify toyArgon (some h) (some ['s', 'e', 'c']) = PyResult.ret true ∧
      ∀ q : PyStr, q ≠ ['s', 'e', 'c'] →
        Argon2.verify toyArgon (some h) (some q) = PyResult.ret false :=
  argon2_hash_verify_roundtrip toyArgon ['s', 'e', 'c'] (by decide)

/-- C2 (code bug): `Argon2.verify` catches only `VerifyMismatchError`, so on
a stored hash that is not a well-formed Argon2 blob the primitive's
`InvalidHashError` escapes instead of `false` being returned; the empty and
mismatch cases do return `false` as claimed.  Evaluated on a concrete
hasher whose primitive raises `InvalidHashError` exactly on blobs it did
not produce, per argon2-cffi's documented behaviour. -/
theorem argon2_verify_malformed_propagates :
    Argon2.verify toyArgonNoPepper
        (some ['n', 'o', 't', 'a', 'h', 'a', 's', 'h']) (some ['x']) = PyResult.raises ∧
    Argon2.verify toyArgonNoPepper (some []) (some ['x']) = PyResult.ret false ∧
    Argon2.verify toyArgonNoPepper none (some ['x']) = PyResult.ret false ∧
    Argon2.verify toyArgonNoPepper
        (some ['n', 'o', 't', 'a', 'h', 'a', 's', 'h']) (some []) = PyResult.ret false := by
  refine ⟨?_, ?_, ?_, ?_⟩ <;> decide

/-- C9: for every configured hasher, `hash` on the empty password raises
(`ValueError("Password cannot be empty")`, the spec's `EmptyInput`) and no
hash is produced. -/
theorem argon2_hash_empty_input (a : Argon2) :
    Argon2.hash a [] = Except.error EmptyInput.emptyPassword := rfl

/-- C3: `verify_reset_token` returns the embedded user id exactly when the
token is signed with the current secret and its expiry is strictly in the
future; a token signed with a different secret yields `None`; and
immediately after `generate_reset_token(uid, ttl)` — at any time before the
ttl has elapsed — verification returns `uid`.  (Totality of
`verify_reset_token` models the `except Exception: return None`: every
decode failure becomes `None`, never an exception.) -/
theorem verify_reset_token_spec :
    (∀ (secret : PyStr) (now : Int) (token : Token) (uid : Int),
      verify_reset_token secret now token = some uid ↔
        ∃ payload, token = Token.signed payload secret ∧
          payload.reset_password = some uid ∧ now < payload.exp) ∧
    (∀ (secret : PyStr) (now : Int) (payload : JwtPayload) (s2 : PyStr),
      s2 ≠ secret → verify_reset_token secret now (Token.signed payload s2) = none) ∧
    (∀ (secret : PyStr) (uid ttl t0 t1 : Int), t1 < t0 + ttl →
      verify_reset_token secret t1 (generate_reset_token secret t0 uid ttl) = some uid) := by
  refine ⟨?_, ?_, ?_⟩
  · intro secret now token uid
    constructor
    · intro h
      cases token with
      | malformed r => simp [verify_reset_token, jwtDecode] at h
      | signed p s =>
        by_cases hs : s = secret
        · subst hs
          by_cases hexp : p.exp ≤ now
          · simp [verify_reset_token, jwtDecode, hexp] at h
          · simp [verify_reset_token, jwtDecode, hexp] at h
            exact ⟨p, rfl, h, lt_of_not_le hexp⟩
        · simp [verify_reset_token, jwtDecode, hs] at h
    · rintro ⟨p, rfl, hrp, hexp⟩
      simp [verify_reset_token, jwtDecode, hrp, not_le.mpr hexp]
  · intro secret now payload s2 h
    simp [verify_reset_token, jwtDecode, h]
  · intro secret uid ttl t0 t1 h
    have hnl : ¬ (t0 + ttl ≤ t1) := by omega
    simp [verify_reset_token, generate_reset_token, jwtEncode, jwtDecode, hnl]

/-- C4: `Argon2Policy` construction fails with `InvalidPolicyConfig` (the
spec's `PolicyError`) exactly when a hard floor is violated — time cost < 1,
parallelism < 1, hash length < 16 or salt length < 16 — succeeds for every
input at or above all hard floors, and soft-threshold violations (memory
below 128 MiB, hash length below 32 bytes) only emit warnings. -/
theorem argon2_policy_hard_floors (t m p hl sl : Int) (pep : Option PyStr) :
    ((∃ v, mkArgon2Policy t m p hl sl pep = Except.ok v) ↔
      (ARGON2_MIN_TIME_COST ≤ t ∧ ARGON2_MIN_PARALLELISM ≤ p ∧
       ARGON2_MIN_HASH_LENGTH ≤ hl ∧ ARGON2_MIN_SALT_LENGTH ≤ sl)) ∧
    (∀ pol ws, mkArgon2Policy t m p hl sl pep = Except.ok (pol, ws) →
      (m < ARGON2_WARN_MEMORY → PolicyWarning.memoryBelowOwasp ∈ ws) ∧
      (hl < ARGON2_WARN_HASH_LENGTH → PolicyWarning.hashLengthBelowOwasp ∈ ws)) := by
  by_cases h1 : t < ARGON2_MIN_TIME_COST
  · have he : mkArgon2Policy t m p hl sl pep = Except.error PolicyError.timeCostTooLow := by
      unfold mkArgon2Policy
      rw [if_pos h1]
    rw [he]
    refine ⟨⟨fun hv => Except.noConfusion hv.choose_spec, fun hc => absurd hc.1 (not_le.mpr h1)⟩,
      fun pol ws hok => Except.noConfusion hok⟩
  by_cases h2 : p < ARGON2_MIN_PARALLELISM
  · have he : mkArgon2Policy t m p hl sl pep = Except.error PolicyError.parallelismTooLow := by
      unfold mkArgon2Policy
      rw [if_neg h1, if_pos h2]
    rw [he]
    refine ⟨⟨fun hv => Except.noConfusion hv.choose_spec, fun hc => absurd hc.2.1 (not_le.mpr h2)⟩,
      fun pol ws hok => Except.noConfusion hok⟩
  by_cases h3 : hl < ARGON2_MIN_HASH_LENGTH
  · have he : mkArgon2Policy t m p hl sl pep = Except.error PolicyError.hashLengthTooLow := by
      unfold mkArgon2Policy
      rw [if_neg h1, if_neg h2, if_pos h3]
    rw [he]
    refine ⟨⟨fun hv => Except.noConfusion hv.choose_spec, fun hc => absurd hc.2.2.1 (not_le.mpr h3)⟩,
      fun pol ws hok => Except.noConfusion hok⟩
  by_cases h4 : sl < ARGON2_MIN_SALT_LENGTH
  · have he : mkArgon2Policy t m p hl sl pep = Except.error PolicyError.saltLengthTooLow := by
      unfold mkArgon2Policy
      rw [if_neg h1, if_neg h2, if_neg h3, if_pos h4]
    rw [he]
    refine ⟨⟨fun hv => Except.noConfusion hv.choose_spec, fun hc => absurd hc.2.2.2 (not_le.mpr h4)⟩,
      fun pol ws hok => Except.noConfusion hok⟩
  refine ⟨⟨fun _ => ⟨not_lt.mp h1, not_lt.mp h2, not_lt.mp h3, not_lt.mp h4⟩, fun _ => ?_⟩, ?_⟩
  · unfold mkArgon2Policy
    rw [if_neg h1, if_neg h2, if_neg h3, if_neg h4]
    exact ⟨_, rfl⟩
  · intro pol ws hok
    unfold mkArgon2Policy at hok
    rw [if_neg h1, if_neg h2, if_neg h3, if_neg h4] at hok
    simp only [Except.ok.injEq, Prod.mk.injEq] at hok
    obtain ⟨-, hws⟩ := hok
    subst hws
    refine ⟨fun hm => ?_, fun hh => ?_⟩
    · simp [List.mem_append, hm]
    · simp [List.mem_append, hh]

/-- The truthiness of the modelled `db.session.scalar` result: truthy
exactly when the canonical value occurs among the stored values and is not
the empty string (the fetched value equals `canonical`, and the empty
string is falsy). -/
theorem find_beq_truthy (existing : List PyStr) (c : PyStr) :
    pyTruthy (existing.find? (fun v => v == c)) = (existing.contains c && !c.isEmpty) := by
  induction existing with
  | nil => rfl
  | cons a es ih =>
    by_cases ha : a = c
    · subst ha
      simp [List.find?, pyTruthy]
    · have hb : (a == c) = false := beq_eq_false_iff_ne.mpr ha
      have hb' : (c == a) = false := beq_eq_false_iff_ne.mpr (Ne.symm ha)
      have hca : c ≠ a := Ne.symm ha
      simp [List.find?, hb, hb', hca, ih, List.contains_cons]

/-- C5 counterexample: with candidate `""`, stored values `[""]` and no
original, the canonical candidate is present among the existing values, so
the claim as stated demands rejection — but `validate_unique` accepts,
because `if exists:` tests the truthiness of the fetched value and the
empty string is falsy. -/
theorem validate_unique_spec_counterexample :
    validate_unique [] [[]] none = true ∧ is_unique_spec [] [[]] none = false := by
  exact ⟨by decide, by decide⟩

/-- C5 amended: `validate_unique` equals the spec's uniqueness predicate
amended in one point — a candidate whose canonical form is the empty string
is never rejected (and an empty `original` gives no exemption, which never
changes the outcome: the only candidate canonically equal to it is itself
empty, hence accepted either way). -/
theorem validate_unique_amended_eq (candidate : PyStr) (existing : List PyStr)
    (original : Option PyStr) :
    validate_unique candidate existing original = is_unique_amended candidate existing original := by
  have hfind := find_beq_truthy existing (pyLower candidate)
  cases original with
  | none =>
    cases hx : existing.contains (pyLower candidate) <;>
      cases hy : (pyLower candidate).isEmpty <;>
        simp_all [validate_unique, is_unique_amended, pyTruthy]
  | some o =>
    cases o with
    | nil =>
      cases hx : existing.contains (pyLower candidate) <;>
        cases hy : (pyLower candidate).isEmpty <;>
          simp_all [validate_unique, is_unique_amended, pyTruthy, pyLower, List.isEmpty_iff]
    | cons c0 cs =>
      cases he : (pyLower candidate == pyLower (c0 :: cs)) <;>
        cases hx : existing.contains (pyLower candidate) <;>
          cases hy : (pyLower candidate).isEmpty <;>
            simp_all [validate_unique, is_unique_amended, pyTruthy]

/-- C10 counterexample: with candidate `""`, stored values `[""]` and
original `""`, a match exists among the stored values, so the claim as
stated demands rejection — but `validate_unique` accepts: the exemption is
indeed skipped (empty original is falsy), yet the `if exists:` truthiness
test on the fetched empty string is also false, so no rejection occurs. -/
theorem validate_unique_empty_original_counterexample :
    validate_unique [] [[]] (some []) = true ∧
      ([[]] : List PyStr).contains (pyLower []) = true := by
  exact ⟨by decide, by decide⟩

/-- C10 amended: an empty `original` disables the edit exemption — the
result is exactly that of supplying no original — and the check then
rejects precisely when the canonical candidate is present among the
existing values AND is itself non-empty (an empty canonical candidate is
never rejected, because the fetched empty string is falsy). -/
theorem validate_unique_empty_original (candidate : PyStr) (existing : List PyStr) :
    validate_unique candidate existing (some []) = validate_unique candidate existing none ∧
    (validate_unique candidate existing (some []) = false ↔
      (existing.contains (pyLower candidate) = true ∧ (pyLower candidate).isEmpty = false)) := by
  have hfind := find_beq_truthy existing (pyLower candidate)
  refine ⟨rfl, ?_⟩
  cases hx : existing.contains (pyLower candidate) <;>
    cases hy : (pyLower candidate).isEmpty <;>
      simp_all [validate_unique, pyTruthy]

/-- Looking up a key in a registry built by folding `register_hasher` calls
over an initial table equals folding a last-write-wins accumulator over the
calls, seeded with the initial table's answer. -/
theorem buildRegistry_lookup (calls : List (PyStr × HasherClass)) (reg : Registry)
    (key : PyStr) :
    (calls.foldl (fun r c => (register_hasher r c.1 c.2).1) reg).lookup key =
      calls.foldl (fun acc c => if pyLower c.1 == key then some c.2 else acc)
        (reg.lookup key) := by
  induction calls generalizing reg with
  | nil => rfl
  | cons c cs ih =>
    simp only [List.foldl_cons]
    rw [ih]
    congr 1
    by_cases hk : key = pyLower c.1
    · subst hk
      simp [register_hasher, List.lookup]
    · have h1 : (key == pyLower c.1) = false := beq_eq_false_iff_ne.mpr hk
      have h2 : (pyLower c.1 == key) = false := beq_eq_false_iff_ne.mpr (Ne.symm hk)
      simp [register_hasher, List.lookup, h1, h2]

/-- C6: after any finite sequence of `register_hasher` calls,
`get_hasher_class` returns the most recently registered constructor for the
case-folded name — re-registration succeeds with last write winning, and the
overwrite warning fires exactly when the key was already present — while a
name whose case-folded form was never registered raises (`ValueError`, the
spec's `UnsupportedAlgorithm`) rather than defaulting. -/
theorem registry_resolve_last_write (calls : List (PyStr × HasherClass)) (name : PyStr) :
    (get_hasher_class (buildRegistry calls) name =
      match lastRegistered calls name with
      | some cls => Except.ok cls
      | none => Except.error UnsupportedAlgorithm.unsupported) ∧
    (∀ (reg : Registry) (n : PyStr) (cls : HasherClass),
      ((register_hasher reg n cls).1).lookup (pyLower n) = some cls ∧
      (register_hasher reg n cls).2 = (reg.lookup (pyLower n)).isSome) := by
  constructor
  · unfold get_hasher_class buildRegistry lastRegistered
    rw [buildRegistry_lookup]
    rfl
  · intro reg n cls
    exact ⟨by simp [register_hasher, List.lookup], rfl⟩

/-- Over a list of characters, "every character is outside the class" is
the negation of the regex-search `any`. -/
theorem all_not_eq_not_any (pw : PyStr) (f : Char → Bool) :
    (pw.all fun c => !f c) = !pw.any f := by
  induction pw with
  | nil => rfl
  | cons c cs ih => simp [List.all_cons, List.any_cons, ih]

/-- C7: `PasswordPolicy.validate` returns without error exactly when the
password meets the minimum length and every required character class, and
otherwise fails naming the first unmet rule in the fixed precedence order
length, upper, lower, digit, special (`firstUnmetRule`, the spec's
wording). -/
theorem password_validate_first_unmet (pol : PasswordPolicy) (pw : PyStr) :
    (PasswordPolicy.validate pol pw =
      match firstUnmetRule pol pw with
      | some e => Except.error e
      | none => Except.ok ()) ∧
    (PasswordPolicy.validate pol pw = Except.ok () ↔
      (pol.min_length ≤ (pw.length : Int) ∧
       (pol.require_upper = true → ∃ c ∈ pw, isUpperAZ c = true) ∧
       (pol.require_lower = true → ∃ c ∈ pw, isLowerAZ c = true) ∧
       (pol.require_digit = true → ∃ c ∈ pw, isDigit09 c = true) ∧
       (pol.require_special = true → ∃ c ∈ pw, isSpecialChar c = true))) := by
  have hiff : ∀ (b : Bool) (f : Char → Bool),
      (b = true ∧ ∀ c ∈ pw, f c = false) ↔ (b && !pw.any f) = true := by
    intro b f
    simp [List.any_eq_false]
  have hpresent : ∀ (b : Bool) (f : Char → Bool), ¬((b && !pw.any f) = true) →
      b = true → ∃ c ∈ pw, f c = true := by
    intro b f hbf hb
    subst hb
    rw [Bool.true_and] at hbf
    have hany : pw.any f = true := by
      cases h : pw.any f
      · exact absurd (by simp [h]) hbf
      · rfl
    exact List.any_eq_true.mp hany
  have habsent : ∀ (b : Bool) (f : Char → Bool), ((b && !pw.any f) = true) →
      ∀ c ∈ pw, f c = false := by
    intro b f hbf c hc
    have : pw.any f = false := by
      revert hbf
      cases b <;> cases hany : pw.any f <;> simp [hany]
    simpa using List.any_eq_false.mp this c hc
  unfold PasswordPolicy.validate firstUnmetRule
  simp only [hiff pol.require_upper isUpperAZ, hiff pol.require_lower isLowerAZ,
    hiff pol.require_digit isDigit09, hiff pol.require_special isSpecialChar]
  split_ifs with h1 h2 h3 h4 h5
  · exact ⟨rfl, iff_of_false (by simp)
      (fun hc => absurd hc.1 (not_le.mpr h1))⟩
  · refine ⟨rfl, iff_of_false (by simp) (fun hc => ?_)⟩
    obtain ⟨hb, -⟩ := (hiff pol.require_upper isUpperAZ).mpr h2
    obtain ⟨c, hc1, hf⟩ := hc.2.1 hb
    exact absurd hf (by simp [habsent _ _ h2 c hc1])
  · refine ⟨rfl, iff_of_false (by simp) (fun hc => ?_)⟩
    obtain ⟨hb, -⟩ := (hiff pol.require_lower isLowerAZ).mpr h3
    obtain ⟨c, hc1, hf⟩ := hc.2.2.1 hb
    exact absurd hf (by simp [habsent _ _ h3 c hc1])
  · refine ⟨rfl, iff_of_false (by simp) (fun hc => ?_)⟩
    obtain ⟨hb, -⟩ := (hiff pol.require_digit isDigit09).mpr h4
    obtain ⟨c, hc1, hf⟩ := hc.2.2.2.1 hb
    exact absurd hf (by simp [habsent _ _ h4 c hc1])
  · refine ⟨rfl, iff_of_false (by simp) (fun hc => ?_)⟩
    obtain ⟨hb, -⟩ := (hiff pol.require_special isSpecialChar).mpr h5
    obtain ⟨c, hc1, hf⟩ := hc.2.2.2.2 hb
    exact absurd hf (by simp [habsent _ _ h5 c hc1])
  · exact ⟨rfl, iff_of_true rfl ⟨not_lt.mp h1, hpresent _ _ h2, hpresent _ _ h3,
      hpresent _ _ h4, hpresent _ _ h5⟩⟩

/-- The loop returns the `j`-th tested value as soon as its mean latency
reaches the target while all earlier tested values stayed below it, given
fuel for at least `j + 1` iterations. -/
theorem calibrateLoop_finds (totalTime : Int → ℚ) (target : ℚ) (step : Int → Int) :
    ∀ (j fuel : Nat) (x : Int), j < fuel →
      target ≤ time_call (totalTime (step^[j] x)) 3 →
      (∀ i < j, time_call (totalTime (step^[i] x)) 3 < target) →
      calibrateLoop totalTime target step fuel x = some (step^[j] x) := by
  intro j
  induction j with
  | zero =>
    intro fuel x hf hpass _
    cases fuel with
    | zero => exact absurd hf (by omega)
    | succ f =>
      rw [Function.iterate_zero_apply] at hpass ⊢
      simp [calibrateLoop, hpass]
  | succ j ih =>
    intro fuel x hf hfpass hfail
    cases fuel with
    | zero => exact absurd hf (by omega)
    | succ f =>
      have h0 : time_call (totalTime x) 3 < target := by
        have := hfail 0 (Nat.succ_pos j)
        rwa [Function.iterate_zero_apply] at this
      have hnot : ¬ target ≤ time_call (totalTime x) 3 := not_le.mpr h0
      rw [show calibrateLoop totalTime target step (Nat.succ f) x =
          (if target ≤ time_call (totalTime x) 3 then some x
           else calibrateLoop totalTime target step f (step x)) from rfl]
      rw [if_neg hnot, Function.iterate_succ_apply]
      exact ih f (step x) (Nat.lt_of_succ_lt_succ hf)
        (by rw [← Function.iterate_succ_apply]; exact hfpass)
        (fun i hi => by
          rw [← Function.iterate_succ_apply]
          exact hfail (i + 1) (Nat.succ_lt_succ hi))

/-- Iterating a step that strictly increases every value at or above the
seed grows at least linearly from the seed. -/
theorem iterate_seed_le (step : Int → Int) (seed : Int)
    (hstep : ∀ x, seed ≤ x → x < step x) :
    ∀ k : Nat, seed + k ≤ step^[k] seed := by
  intro k
  induction k with
  | zero => simp
  | succ k ih =>
    have hge : seed ≤ step^[k] seed := by omega
    have hlt := hstep _ hge
    rw [Function.iterate_succ_apply']
    omega

/-- C8: for each of the three calibrators (their seeds and advance rules as
in the source: multiplicative `int(n * 1.2)` from 10000 for PBKDF2, `+1`
from 4 for bcrypt, `+1` from 2 for Argon2 time cost) and every latency
oracle whose 3-repetition mean is monotone non-decreasing in the parameter
and reaches `TARGET_TIME` at some parameter value at or past the seed, the
loop terminates (for sufficient fuel) and reports the first tested value
whose mean latency is at or above the target. -/
theorem calibrateLoop_first_hit (totalTime : Int → ℚ) (step : Int → Int) (seed N : Int)
    (hinst : (step = stepPbkdf2 ∧ seed = 10000) ∨ (step = stepAdd1 ∧ seed = 4) ∨
      (step = stepAdd1 ∧ seed = 2))
    (hmono : ∀ a b : Int, a ≤ b →
      time_call (totalTime a) 3 ≤ time_call (totalTime b) 3)
    (hseedN : seed ≤ N) (hN : TARGET_TIME ≤ time_call (totalTime N) 3) :
    ∃ fuel j, calibrateLoop totalTime TARGET_TIME step fuel seed = some (step^[j] seed) ∧
      TARGET_TIME ≤ time_call (totalTime (step^[j] seed)) 3 ∧
      ∀ i < j, time_call (totalTime (step^[i] seed)) 3 < TARGET_TIME := by
  have hstep : ∀ x, seed ≤ x → x < step x := by
    rcases hinst with ⟨hs, hv⟩ | ⟨hs, hv⟩ | ⟨hs, hv⟩ <;> subst hs <;> subst hv <;>
      intro x hx <;> simp only [stepPbkdf2, stepAdd1] <;> omega
  have hex : ∃ k : Nat, TARGET_TIME ≤ time_call (totalTime (step^[k] seed)) 3 := by
    refine ⟨(N - seed).toNat, ?_⟩
    have hgrow := iterate_seed_le step seed hstep (N - seed).toNat
    have hreach : N ≤ step^[(N - seed).toNat] seed := by omega
    exact le_trans hN (hmono _ _ hreach)
  refine ⟨Nat.find hex + 1, Nat.find hex,
    calibrateLoop_finds totalTime TARGET_TIME step (Nat.find hex) (Nat.find hex + 1) seed
      (Nat.lt_succ_self _) (Nat.find_spec hex)
      (fun i hi => lt_of_not_le (Nat.find_min hex hi)),
    Nat.find_spec hex,
    fun i hi => lt_of_not_le (Nat.find_min hex hi)⟩

/-- C8 witness: the bcrypt-style instance (seed 4, `+1` advance) with the
latency oracle whose 3-repetition total at parameter `x` is `x` seconds. -/
theorem calibrateLoop_first_hit_witness :
    ∃ fuel j, calibrateLoop (fun x => (x : ℚ)) TARGET_TIME stepAdd1 fuel 4 =
        some (stepAdd1^[j] 4) ∧
      TARGET_TIME ≤ time_call ((stepAdd1^[j] 4 : Int) : ℚ) 3 ∧
      ∀ i < j, time_call ((stepAdd1^[i] 4 : Int) : ℚ) 3 < TARGET_TIME :=
  calibrateLoop_first_hit (fun x => (x : ℚ)) stepAdd1 4 4
    (Or.inr (Or.inl ⟨rfl, rfl⟩))
    (fun a b h => by unfold time_call; gcongr; show ((a : ℚ)) ≤ ((b : ℚ)); exact_mod_cast h)
    (le_refl 4)
    (by norm_num [time_call, TARGET_TIME])

/- Concrete evaluations of the embedding, matching the spec's §8 examples. -/

example : validate_unique ['A', 'l', 'i', 'c', 'e']
    [['b', 'o', 'b'], ['c', 'a', 'r', 'o', 'l']] none = true := by decide

example : validate_unique ['B', 'o', 'b']
    [['b', 'o', 'b'], ['c', 'a', 'r', 'o', 'l']] none = false := by decide

example : validate_unique ['B', 'o', 'b']
    [['b', 'o', 'b'], ['c', 'a', 'r', 'o', 'l']] (some ['B', 'o', 'b']) = true := by decide

example : verify_reset_token ['k'] 100 (generate_reset_token ['k'] 0 42 600) = some 42 := by
  decide

example : verify_reset_token ['k'] 600 (generate_reset_token ['k'] 0 42 600) = none := by
  decide

example : verify_reset_token ['k'] 100 (generate_reset_token ['j'] 0 42 600) = none := by
  decide

example : get_hasher_class (buildRegistry [(['A', 'r'], 1), (['a', 'R'], 2)]) ['a', 'r'] =
    Except.ok 2 := by decide

example : get_hasher_class (buildRegistry [(['A', 'r'], 1)]) ['x'] =
    Except.error UnsupportedAlgorithm.unsupported := by decide
